import Mathlib

/-!
Shallow embedding of the `self-healing-system` crate
(`src/aurum-ml-services/self-healing-system/src/`): the patch-generation,
patch-validation, persistence, git-operation and static-analysis functions
that the specification's testable properties talk about, together with
proofs and refutations of those properties.

Strings are modelled as `List Char` (Rust `&str`/`String`; byte indices and
char indices coincide on the ASCII inputs used here).  `f32`/`f64` scores are
modelled as `ℚ`: every arithmetic operation performed by the code on scores
(sums and differences of small decimal constants, min/max, comparisons) is
exact in these ranges, and `ℚ` has no NaN, mirroring the non-NaN floats the
code produces.  Filesystem reads, subprocess invocations and the LLM backend
are external collaborators: their outcomes (file contents, exit statuses,
completions) are explicit arguments.  A Rust operation that can panic
(out-of-bounds slicing) is modelled with `Option`: `none` is the panic.
-/

/-- Decidable equality for `Except`, used to evaluate embedded fallible
functions at concrete inputs. -/
instance {ε α : Type} [DecidableEq ε] [DecidableEq α] : DecidableEq (Except ε α) := fun a b =>
  match a, b with
  | .ok x, .ok y =>
    if h : x = y then .isTrue (by rw [h]) else .isFalse (by simp [h])
  | .error x, .error y =>
    if h : x = y then .isTrue (by rw [h]) else .isFalse (by simp [h])
  | .ok _, .error _ => .isFalse (by simp)
  | .error _, .ok _ => .isFalse (by simp)

/-- Helper `stripPre needle hay`: if `needle` is a prefix of `hay`, the remainder of
`hay` after it, else `none` (helper for literal matching). -/
def stripPre : List Char → List Char → Option (List Char)
  | [], s => some s
  | _ :: _, [] => none
  | c :: cs, d :: ds => if c = d then stripPre cs ds else none

/-- Helper `containsSub needle hay`: does `needle` occur contiguously inside `hay`?
Models Rust `str::contains` with a literal pattern (and a literal-only regex
`is_match`). -/
def containsSub (needle : List Char) : List Char → Bool
  | [] => needle.isEmpty
  | c :: cs => needle.isPrefixOf (c :: cs) || containsSub needle cs

/-- Helper `findSub needle hay`: index of the first occurrence of `needle` in `hay`,
modelling Rust `str::find` with a literal pattern. -/
def findSub (needle : List Char) : List Char → Option Nat
  | [] => if needle.isPrefixOf ([] : List Char) then some 0 else none
  | c :: cs =>
    if needle.isPrefixOf (c :: cs) then some 0 else (findSub needle cs).map (· + 1)

/-- Helper `rfindSub needle hay`: index of the last occurrence of `needle` in `hay`,
modelling Rust `str::rfind` with a literal pattern. -/
def rfindSub (needle hay : List Char) : Option Nat :=
  ((List.range (hay.length + 1)).filter (fun i => needle.isPrefixOf (hay.drop i))).getLast?

/-- Split a character list on a separator; like Rust `str::split`, always
returns at least one (possibly empty) piece. -/
def splitOnChar (sep : Char) : List Char → List (List Char)
  | [] => [[]]
  | c :: cs =>
    let rest := splitOnChar sep cs
    if c = sep then [] :: rest
    else
      match rest with
      | [] => [[c]]
      | r :: rs => (c :: r) :: rs

/-- Remove a single trailing carriage return (Rust `str::lines` behaviour). -/
def stripCR (l : List Char) : List Char :=
  match l.getLast? with
  | some '\r' => l.dropLast
  | _ => l

/-- Rust `str::lines`: split on `\n`, drop a final empty piece produced by a
trailing newline, and strip one trailing `\r` from each line. -/
def rustLines (content : List Char) : List (List Char) :=
  let parts := splitOnChar '\n' content
  let parts :=
    match parts.getLast? with
    | some [] => parts.dropLast
    | _ => parts
  parts.map stripCR

namespace PatchGen

/-!
Embedding of `patch_generator.rs`.  The LLM call itself is external; the
functions below are the pure parsing/scoring steps, with the completion text,
the original snippet and the diff as explicit inputs.
-/

/-- Rust `patch_generator.rs` `ValidationStatus` (line 29). -/
inductive ValidationStatus
  | pending
  | validating
  | valid
  | invalid
  | rejected
deriving DecidableEq

/-- Rust struct `GeneratedPatch` (line 13).  `created_at` is a timestamp (external clock),
modelled as `Nat`. -/
structure GeneratedPatch where
  id : String
  issue_id : String
  original_code : List Char
  patched_code : List Char
  diff : List Char
  explanation : List Char
  confidence : ℚ
  safety_score : ℚ
  breaking_changes : List String
  dependencies : List String
  validation_status : ValidationStatus
  created_at : Nat
deriving DecidableEq

/-- The shape of the compiled `safety_patterns` regexes (line 50): either a
literal string, or two literals separated by `\s*` (optional whitespace), the
only two forms occurring in the list. -/
inductive SafetyPattern
  | lit (tok : List Char)
  | litWsLit (tok1 tok2 : List Char)

/-- Match `tok1` then `\s*` then `tok2` at the start of `s`.  Since both
patterns end their first literal at a non-whitespace boundary and `tok2`
starts with a non-whitespace character, `\s*` consumes exactly the maximal
whitespace run. -/
def matchHere (tok1 tok2 s : List Char) : Bool :=
  match stripPre tok1 s with
  | none => false
  | some rest => tok2.isPrefixOf (rest.dropWhile Char.isWhitespace)

/-- Match `tok1 \s* tok2` anywhere in `s` (regex `is_match`). -/
def scanMatch (tok1 tok2 : List Char) : List Char → Bool
  | [] => matchHere tok1 tok2 []
  | c :: cs => matchHere tok1 tok2 (c :: cs) || scanMatch tok1 tok2 cs

/-- Whether one of the compiled safety regexes matches the code. -/
def patternMatch : SafetyPattern → List Char → Bool
  | .lit tok, code => containsSub tok code
  | .litWsLit t1 t2, code => scanMatch t1 t2 code

/-- The denylist compiled in `PatchGenerator::new` (lines 50-58):
`unsafe\s*\{`, `transmute\s*\(`, `mem::uninitialized`, `ptr::read`,
`ptr::write`, `std::process::Command`, `std::fs::`. -/
def safetyPatterns : List SafetyPattern :=
  [ .litWsLit "unsafe".toList "\x7b".toList
  , .litWsLit "transmute".toList "(".toList
  , .lit "mem::uninitialized".toList
  , .lit "ptr::read".toList
  , .lit "ptr::write".toList
  , .lit "std::process::Command".toList
  , .lit "std::fs::".toList ]

/-- Rust `PatchGenerator::analyze_safety` (lines 218-238): start from `1.0`,
subtract `0.2` per matching denylist pattern, `0.1` when the code mentions
neither `Result` nor `Option`, `0.3` when it contains the word `unsafe`, and
clamp from below at `0.0` (`safety_score.max(0.0)`).  The running
subtractions are summed here, which is the same rational (and the same f32
comparison outcomes on these small decimals). -/
def analyze_safety (code : List Char) : ℚ :=
  let patternPenalty : ℚ :=
    (safetyPatterns.countP (fun p => patternMatch p code) : ℚ) * (2 / 10)
  let errHandlingPenalty : ℚ :=
    if !containsSub "Result".toList code && !containsSub "Option".toList code
    then 1 / 10 else 0
  let penUnsafe : ℚ :=
    if containsSub "unsafe".toList code then 3 / 10 else 0
  max (1 - patternPenalty - errHandlingPenalty - penUnsafe) 0

/-- Rust `PatchGenerator::calculate_confidence` (lines 193-216): base `0.5`, plus
`0.2` for certainty language, `0.15` for test/verification language, `0.1`
when the diff has both unified-diff headers, `0.05` when the diff has more
than five lines, clamped from above at `1.0` (`score.min(1.0)`). -/
def calculate_confidence (content diff : List Char) : ℚ :=
  let s1 : ℚ := 5 / 10
  let s2 :=
    if containsSub "confident".toList content || containsSub "certain".toList content
    then s1 + 2 / 10 else s1
  let s3 :=
    if containsSub "tested".toList content || containsSub "verified".toList content
    then s2 + 15 / 100 else s2
  let s4 :=
    if containsSub "+++".toList diff && containsSub "---".toList diff
    then s3 + 1 / 10 else s3
  let s5 := if 5 < (rustLines diff).length then s4 + 5 / 100 else s4
  min s5 1

/-- Rust `PatchGenerator::apply_diff` (lines 171-180).  The body is a placeholder:
it builds `result = original.to_string()` but never uses it, and returns the
raw diff text (`Ok(diff.to_string())`), with a comment that a proper diff
library is needed. -/
def apply_diff (original diff : List Char) : List Char :=
  let result := original
  diff

/-- Error produced when no diff can be extracted
(`anyhow!("No valid diff found in response")`). -/
inductive GenError
  | parseError
deriving DecidableEq

/-- Match a lazy fenced-block capture (regex shape `opener(.*?)closer`) at
the start of `s`.  In the Rust regexes `.` does not match a newline, so the
capture is the text up to the first newline, and the match succeeds only
when that newline is immediately followed by the closer. -/
def fencedAt (opener closer s : List Char) : Option (List Char) :=
  match stripPre opener s with
  | none => none
  | some rest =>
    let line := rest.takeWhile (fun c => c ≠ '\n')
    if closer.isPrefixOf (rest.drop line.length) then some line else none

/-- Leftmost match of the fenced-block regex anywhere in the content
(`Regex::captures`). -/
def findFenced (opener closer : List Char) : List Char → Option (List Char)
  | [] => fencedAt opener closer []
  | c :: cs =>
    match fencedAt opener closer (c :: cs) with
    | some cap => some cap
    | none => findFenced opener closer cs

/-- Rust `PatchGenerator::extract_diff` (lines 145-169):
`diff_start = content.find("---").unwrap_or(0)`,
`diff_end = content.rfind("+++").map(|i| i + 100).unwrap_or(content.len())`,
then the slice `content[diff_start..diff_end]` — which panics (`none`) when
the bounds are invalid, exactly Rust's slice rule `start ≤ end ≤ len`.  An
empty slice falls back to the ```` ```diff ````/```` ```patch ```` fenced
blocks and otherwise a `ParseError`; a non-empty slice is returned as the
diff. -/
def extract_diff (content : List Char) : Option (Except GenError (List Char)) :=
  let diffStart := (findSub "---".toList content).getD 0
  let diffEnd := ((rfindSub "+++".toList content).map (· + 100)).getD content.length
  if diffStart ≤ diffEnd ∧ diffEnd ≤ content.length then
    let diff := (content.drop diffStart).take (diffEnd - diffStart)
    if diff.isEmpty then
      match findFenced "```diff\n".toList "\n```".toList content with
      | some cap => some (.ok cap)
      | none =>
        match findFenced "```patch\n".toList "\n```".toList content with
        | some cap => some (.ok cap)
        | none => some (.error .parseError)
    else some (.ok diff)
  else none

/-- Rust `PatchGenerator::get_original_code` (lines 108-120), with the file's
contents (read by `fs::read_to_string`) passed in explicitly:
`start_line = (line_number as usize).saturating_sub(5)` (Nat subtraction),
`end_line = (line_number + 5).min(lines.len())`, then the slice
`&lines[start_line..end_line]` — `none` models the slice panic when
`start_line > end_line` — joined with newlines. -/
def get_original_code (content : List Char) (line_number : Nat) : Option (List Char) :=
  let lines := rustLines content
  let start_line := line_number - 5
  let end_line := min (line_number + 5) lines.length
  if start_line ≤ end_line ∧ end_line ≤ lines.length then
    some (List.intercalate "\n".toList ((lines.drop start_line).take (end_line - start_line)))
  else none

/-- The ranking key used by `generate_multiple_patches`:
`confidence * safety_score`. -/
def rankKey (p : GeneratedPatch) : ℚ :=
  p.confidence * p.safety_score

/-- Model of `f64::partial_cmp` on scores: `None` only for NaN, and the
rationals modelling the generator's scores are never NaN, so the comparison
always yields `some` (the `unwrap` in the sort comparator cannot panic). -/
def scoreCmp (a b : ℚ) : Option Ordering :=
  some (compare a b)

/-- One insertion step of a stable sort descending by `rankKey`: the element
`x` (earlier in generation order) is placed before the first element whose
key is `≤` its own, so earlier elements precede later ones on ties — the
behaviour of Rust's stable `sort_by` with comparator
`score_b.partial_cmp(&score_a)`. -/
def sortInsert (x : GeneratedPatch) : List GeneratedPatch → List GeneratedPatch
  | [] => [x]
  | y :: ys => if rankKey y ≤ rankKey x then x :: y :: ys else y :: sortInsert x ys

/-- Stable sort of the generated patches, descending by
`confidence * safety_score` (`patches.sort_by(...)`, lines 301-305). -/
def rankPatches : List GeneratedPatch → List GeneratedPatch
  | [] => []
  | x :: xs => sortInsert x (rankPatches xs)

/-- Rust `PatchGenerator::generate_multiple_patches` (lines 287-308) after the
generation loop: the `count` patches produced by the successive
`generate_patch` calls (given here as the input list) are sorted by
`confidence × safety_score` descending with Rust's stable `sort_by`. -/
def generate_multiple_patches (patches : List GeneratedPatch) : List GeneratedPatch :=
  rankPatches patches

end PatchGen

namespace Validator

/-!
Embedding of `patch_validator.rs`.  The build/test/scan subprocesses are
external tools: their exit statuses (and, for optional tools, whether the
command could be launched at all) are the `StageOutcomes` input.  Wall-clock
metrics and timestamps are I/O and are zeroed in the source
(`ValidationMetrics` is populated with zeros); they are elided here.
-/

/-- Rust `patch_validator.rs` `ValidationStatus` (line 27). -/
inductive VStatus
  | pending
  | running
  | success
  | failed
  | warning
deriving DecidableEq

/-- Rust `PerformanceImpact` (line 36). -/
structure PerformanceImpact where
  compile_time_change : ℚ
  binary_size_change : Int
  memory_usage_change : ℚ
  runtime_performance_change : ℚ
deriving DecidableEq

/-- The semantic fields of `ValidationResult` (line 12). -/
structure ValidationResult where
  patch_id : String
  status : VStatus
  build_success : Bool
  test_success : Bool
  security_scan_passed : Bool
  performance_impact : PerformanceImpact
  errors : List String
  warnings : List String
deriving DecidableEq

/-- Outcomes of the external commands run by `validate_patch`:
`git apply`, `cargo check`, `cargo test`, `cargo audit`/`cargo clippy`
(each `none` when the tool could not be launched, which the source treats as
a pass), the measured binary size, and the diagnostics collected by
`collect_issues`. -/
structure StageOutcomes where
  applyExit : Int
  buildExit : Int
  testExit : Int
  auditOutcome : Option Int
  clippyOutcome : Option Int
  binarySize : Int
  collectedErrors : List String
  collectedWarnings : List String
deriving DecidableEq

/-- Rust `ExitStatus::success()`: exit code zero. -/
def exitOk (code : Int) : Bool :=
  code == 0

/-- Rust `PatchValidator::check_build` (lines 173-190): the `cargo check` exit
status. -/
def check_build (o : StageOutcomes) : Bool :=
  exitOk o.buildExit

/-- Rust `PatchValidator::check_tests` (lines 192-209): the `cargo test` exit
status. -/
def check_tests (o : StageOutcomes) : Bool :=
  exitOk o.testExit

/-- Rust `PatchValidator::run_security_scan` (lines 211-252): `cargo audit` and
`cargo clippy` must both pass; a tool that cannot be launched is skipped and
counted as a pass. -/
def run_security_scan (o : StageOutcomes) : Bool :=
  (match o.auditOutcome with
   | some c => exitOk c
   | none => true)
  && (match o.clippyOutcome with
      | some c => exitOk c
      | none => true)

/-- Rust `PatchValidator::measure_performance_impact` (lines 254-269): only the
binary-size delta is measured; the other fields are zero. -/
def measure_performance_impact (o : StageOutcomes) : PerformanceImpact :=
  { compile_time_change := 0
  , binary_size_change := o.binarySize
  , memory_usage_change := 0
  , runtime_performance_change := 0 }

/-- Rust `PatchValidator::validate_patch` (lines 79-132): apply the patch to the
workspace copy (a non-zero `git apply` exit aborts with an error), run the
stages, then classify: `Success` iff build ∧ test ∧ security,
`Warning` iff build ∧ test but not security, `Failed` otherwise. -/
def validate_patch (patchId : String) (o : StageOutcomes) : Except String ValidationResult :=
  if !exitOk o.applyExit then .error "Failed to apply patch with git apply"
  else
    let build_success := check_build o
    let test_success := check_tests o
    let security_scan_passed := run_security_scan o
    let status :=
      if build_success && test_success && security_scan_passed then VStatus.success
      else if build_success && test_success then VStatus.warning
      else VStatus.failed
    .ok
      { patch_id := patchId
      , status := status
      , build_success := build_success
      , test_success := test_success
      , security_scan_passed := security_scan_passed
      , performance_impact := measure_performance_impact o
      , errors := o.collectedErrors
      , warnings := o.collectedWarnings }

/-- Outcomes of the Docker commands run by `validate_with_docker`:
`docker build` and the single `docker run` of the validation container. -/
structure DockerOutcomes where
  buildImageExit : Int
  runExit : Int
deriving DecidableEq

/-- Rust `PatchValidator::validate_with_docker` (lines 351-416): without Docker it
delegates to `validate_patch`; with Docker it builds the image (non-zero exit
aborts with an error) and runs one container, then reports
`build_success = test_success = (run succeeded)`,
`security_scan_passed = true` unconditionally, zero performance impact, no
diagnostics, and status `Success` or `Failed` from the single run exit. -/
def validate_with_docker (docker_available : Bool) (patchId : String)
    (o : StageOutcomes) (d : DockerOutcomes) : Except String ValidationResult :=
  if !docker_available then validate_patch patchId o
  else if !exitOk d.buildImageExit then .error "Failed to build Docker image"
  else
    let ok := exitOk d.runExit
    .ok
      { patch_id := patchId
      , status := if ok then VStatus.success else VStatus.failed
      , build_success := ok
      , test_success := ok
      , security_scan_passed := true
      , performance_impact :=
        { compile_time_change := 0
        , binary_size_change := 0
        , memory_usage_change := 0
        , runtime_performance_change := 0 }
      , errors := []
      , warnings := [] }

end Validator

namespace Database

/-!
Embedding of `database.rs`.  SQL rows are modelled as Lean structures; an
`UPDATE ... WHERE id = ?` is modelled by its effect on the matching row.
`DATETIME` values are `Nat` timestamps, JSON blobs are their serialized
strings.
-/

/-- Rust `database.rs` `ValidationStatus` (line 63): note this store-level enum has
`Success`/`Failed`/`Warning` (matching the validator), not the generator's
`Valid`/`Invalid`. -/
inductive DbValidationStatus
  | pending
  | running
  | success
  | failed
  | warning
deriving DecidableEq

/-- The `patches` row type, `database.rs` `Patch` (lines 44-61). -/
structure Patch where
  id : String
  issue_id : String
  patch_content : String
  description : String
  confidence_score : ℚ
  safety_score : ℚ
  breaking_changes : Bool
  dependencies_affected : Option String
  validation_status : DbValidationStatus
  validation_results : Option String
  applied : Bool
  applied_at : Option Nat
  rollback_patch : Option String
  created_at : Nat
  updated_at : Nat
deriving DecidableEq

/-- Rust `Database::mark_patch_applied` (lines 301-318), as its effect on the row
with the given id:
`UPDATE patches SET applied = true, applied_at = ?, rollback_patch = ?,
updated_at = ? WHERE id = ?`.  It stores exactly the `rollback_patch`
argument (possibly NULL) and touches no other column — in particular it
never checks or changes `validation_status`. -/
def mark_patch_applied (p : Patch) (rollback_patch : Option String) (now : Nat) : Patch :=
  { p with
    applied := true
    applied_at := some now
    rollback_patch := rollback_patch
    updated_at := now }

/-- The spec's Patch invariant: `applied == true` implies
`validation_status == Valid` and `rollback_patch.is_some()`.  In this store's
enum the validated-successfully state is `Success`. -/
def patchInvariant (p : Patch) : Prop :=
  p.applied = true → p.validation_status = DbValidationStatus.success ∧ p.rollback_patch.isSome = true

instance (p : Patch) : Decidable (patchInvariant p) := by
  unfold patchInvariant
  infer_instance

end Database

namespace GitOps

/-!
Embedding of `git_operations.rs`.  The repository is modelled by the state
the claims observe: the commit log, the HEAD hash, and whether `statuses()`
is empty (`is_working_directory_clean`).  Each `git2` call or `git`
subprocess is a primitive whose outcome is an input; the functions return
`(result, new state)`.
-/

/-- Rust `git_operations.rs` `GitError` (lines 8-20). -/
inductive GitError
  | gitError (msg : String)
  | pathError (msg : String)
  | branchError (msg : String)
  | mergeConflict
  | invalidState
deriving DecidableEq

/-- The repository state observed by the claims. -/
structure RepoState where
  commits : List String
  headHash : String
  workdirClean : Bool
deriving DecidableEq

/-- Captured output of a `git` subprocess (`std::process::Output`). -/
structure ProcOutput where
  success : Bool
  stderr : String
deriving DecidableEq

/-- Rust `GitOperations::is_working_directory_clean` (lines 324-327):
`statuses()` is empty. -/
def is_working_directory_clean (st : RepoState) : Bool :=
  st.workdirClean

/-- The in-memory index returned by `git2`'s `cherry_pick_commit` (an
in-memory merge that does not touch the working tree), with its
`is_conflicted` flag. -/
structure CherryPickIndex where
  conflicted : Bool
  treeId : String
deriving DecidableEq

/-- Rust `GitOperations::cherry_pick` (lines 359-386): an in-memory
`cherry_pick_commit`; when the index is conflicted, return
`Err(GitError::MergeConflict)` before any tree write or commit, leaving the
repository untouched; otherwise write the tree and commit it on HEAD
(`newCommitId` is the oid produced by `repo.commit`). -/
def cherry_pick (st : RepoState) (idx : CherryPickIndex) (newCommitId : String) :
    Except GitError Unit × RepoState :=
  if idx.conflicted then (.error .mergeConflict, st)
  else (.ok (), { st with commits := newCommitId :: st.commits, headHash := newCommitId })

/-- Rust `GitOperations::apply_patch` (lines 161-182): write the patch to a temp
file and run `git apply --3way`.  The subprocess mutates the working tree
itself (with `--3way` a conflicting apply leaves conflict markers in the
tree), so its effect on cleanliness (`workdirCleanAfter`) is part of the
outcome.  A non-zero exit is wrapped as
`GitError::BranchError("Failed to apply patch: {stderr}")` — not as
`MergeConflict`. -/
def apply_patch (st : RepoState) (out : ProcOutput) (workdirCleanAfter : Bool) :
    Except GitError Unit × RepoState :=
  let st' := { st with workdirClean := workdirCleanAfter }
  if !out.success then
    (.error (.branchError ("Failed to apply patch: " ++ out.stderr)), st')
  else (.ok (), st')

end GitOps

namespace Analyzer

/-!
Embedding of `static_analysis.rs`.  The `syn` parse tree is modelled by the
constructors the `Edition2024CompatibilityVisitor` inspects: functions (name,
span, unsafety), structs (name, span) and trait impls (trait name, span).
Item nesting is flattened into the file's item list, which preserves the set
of visited nodes.  Reading and parsing a file (`fs::read_to_string` +
`syn::parse_file`) are external; their combined outcome is the `parsed`
field.  `uuid::Uuid::new_v4` is nondeterministic I/O; issue ids are modelled
as `""`.
-/

/-- Rust `static_analysis.rs` `IssueSeverity` (line 23). -/
inductive IssueSeverity
  | error
  | warning
  | info
deriving DecidableEq

/-- Rust `static_analysis.rs` `IssueType` (line 30).  Note: there is no
`ParseError` variant. -/
inductive IssueType
  | edition2024Compatibility
  | deprecatedUsage
  | unsafeCode
  | performance
  | security
  | style
  | complexity
deriving DecidableEq

/-- Rust struct `AnalysisIssue` (line 10); the `context` map is always created empty by
`add_issue`. -/
structure AnalysisIssue where
  id : String
  severity : IssueSeverity
  issue_type : IssueType
  file_path : String
  line_number : Nat
  column_number : Nat
  message : String
  suggestion : Option String
deriving DecidableEq

/-- The parts of a `syn` item inspected by the visitor. -/
inductive Item
  | itemFn (name : String) (line col : Nat) (sigUnsafe : Bool)
  | itemStruct (name : String) (line col : Nat)
  | itemImpl (traitName : Option String) (line col : Nat)
deriving DecidableEq

/-- Rust `Edition2024CompatibilityVisitor::add_issue` (lines 114-128): severity is
always `Error`, the context map empty, the id a fresh uuid (modelled `""`). -/
def add_issue (file : String) (issue_type : IssueType) (line col : Nat)
    (message : String) (suggestion : Option String) : AnalysisIssue :=
  { id := ""
  , severity := .error
  , issue_type := issue_type
  , file_path := file
  , line_number := line
  , column_number := col
  , message := message
  , suggestion := suggestion }

/-- The visitor's checks (lines 131-202): `visit_item_fn` flags names
containing `async_trait` and functions declared with the `unsafe` qualifier;
`visit_item_struct` flags struct names ending in `Error` without
`Edition2024`; `visit_item_impl` flags impls of `Future`, `AsyncRead` or
`AsyncWrite`. -/
def checkItem (file : String) : Item → List AnalysisIssue
  | .itemFn name line col sigUnsafe =>
    (if containsSub "async_trait".toList name.toList then
      [add_issue file .edition2024Compatibility line col
        "async_trait usage may need edition2024 compatibility check"
        (some "Consider using native async fn in trait with edition2024")]
    else [])
    ++
    (if sigUnsafe then
      [add_issue file .unsafeCode line col
        "Unsafe function detected"
        (some "Consider safe alternatives or add safety documentation")]
    else [])
  | .itemStruct name line col =>
    if "Error".toList.isSuffixOf name.toList
        && !containsSub "Edition2024".toList name.toList then
      [add_issue file .edition2024Compatibility line col
        "Error struct may need edition2024 compatibility"
        (some "Consider adding edition2024 compatibility attributes")]
    else []
  | .itemImpl traitName line col =>
    match traitName with
    | some t =>
      if t = "Future" || t = "AsyncRead" || t = "AsyncWrite" then
        [add_issue file .edition2024Compatibility line col
          (t ++ " implementation may need edition2024 compatibility")
          (some "Check async trait implementation for edition2024")]
      else []
    | none => []

/-- Rust `visitor.visit_file`: the issues collected over all items of a file. -/
def visit_file (file : String) (items : List Item) : List AnalysisIssue :=
  items.flatMap (checkItem file)

/-- A source file handed to the analyzer: its path and the outcome of
reading + parsing it (the `with_context` error strings of lines 76-80). -/
structure RustFile where
  path : String
  parsed : Except String (List Item)
deriving DecidableEq

/-- Rust `StaticAnalyzer::analyze_file` (lines 75-88): a read/parse failure is
propagated with `?`; otherwise the visitor's issues are returned. -/
def analyze_file (f : RustFile) : Except String (List AnalysisIssue) :=
  match f.parsed with
  | .error e => .error e
  | .ok items => .ok (visit_file f.path items)

/-- Rust `StaticAnalyzer::analyze_project` (lines 61-73): the loop
`for file in files { all_issues.extend(self.analyze_file(file)?); }` — the
`?` propagates the first per-file failure out of the whole loop. -/
def analyze_project : List RustFile → Except String (List AnalysisIssue)
  | [] => .ok []
  | f :: rest =>
    match analyze_file f with
    | .error e => .error e
    | .ok issues =>
      match analyze_project rest with
      | .error e => .error e
      | .ok more => .ok (issues ++ more)

end Analyzer

example : PatchGen.safetyPatterns.countP
    (fun p => PatchGen.patternMatch p "unsafe \x7b ptr::read(p) \x7d".toList) = 2 := by decide
example : PatchGen.safetyPatterns.countP
    (fun p => PatchGen.patternMatch p "fn f() -> Result<i32, E>".toList) = 0 := by decide
example : PatchGen.scanMatch "unsafe".toList "\x7b".toList "unsafe   \x7b".toList = true := by decide
example : PatchGen.scanMatch "unsafe".toList "\x7b".toList "unsafe fn f".toList = false := by decide
example : PatchGen.extract_diff "+++".toList = none := by decide
example : PatchGen.extract_diff "hello".toList = some (.ok "hello".toList) := by decide
example : PatchGen.extract_diff "".toList = some (.error .parseError) := by decide
example : PatchGen.get_original_code "a\nb\nc".toList 1 = some "a\nb\nc".toList := by decide
example : PatchGen.get_original_code "a\nb\nc".toList 20 = none := by decide
/-! ### String-matching helper lemmas -/

theorem stripPre_some_append {n s r t : List Char} (h : stripPre n s = some r) :
    stripPre n (s ++ t) = some (r ++ t) := by
  induction n generalizing s with
  | nil =>
    simp only [stripPre, Option.some.injEq] at h ⊢
    rw [h]
  | cons c cs ih =>
    cases s with
    | nil => simp [stripPre] at h
    | cons d ds =>
      by_cases hcd : c = d
      · simp only [stripPre, List.cons_append, if_pos hcd] at h ⊢
        exact ih h
      · exact absurd h (by simp [stripPre, hcd])

theorem isPrefixOf_append_of {l s u : List Char} (h : l.isPrefixOf s = true) :
    l.isPrefixOf (s ++ u) = true := by
  rw [List.isPrefixOf_iff_prefix] at h ⊢
  exact h.trans (s.prefix_append u)

theorem containsSub_iff_occurs {n h : List Char} :
    containsSub n h = true ↔ n <:+: h := by
  induction h with
  | nil =>
    simp [containsSub, List.isEmpty_iff, List.infix_nil]
  | cons c cs ih =>
    simp [containsSub, List.infix_cons_iff, ih, List.isPrefixOf_iff_prefix]

theorem containsSub_append {n s u : List Char} (h : containsSub n s = true) :
    containsSub n (s ++ u) = true := by
  rw [containsSub_iff_occurs] at h ⊢
  exact h.trans ⟨[], u, by simp⟩

theorem matchHere_append {t1 t2 s u : List Char} (h : PatchGen.matchHere t1 t2 s = true) :
    PatchGen.matchHere t1 t2 (s ++ u) = true := by
  unfold PatchGen.matchHere at h ⊢
  cases hsp : stripPre t1 s with
  | none => rw [hsp] at h; exact absurd h (by simp)
  | some rest =>
    rw [hsp] at h
    rw [stripPre_some_append hsp]
    change t2.isPrefixOf (rest.dropWhile Char.isWhitespace) = true at h
    change t2.isPrefixOf ((rest ++ u).dropWhile Char.isWhitespace) = true
    cases hd : rest.dropWhile Char.isWhitespace with
    | nil =>
      rw [hd] at h
      have ht2 : t2 = [] := by
        cases t2 with
        | nil => rfl
        | cons a as => simp [List.isPrefixOf] at h
      simp [ht2]
    | cons d ds =>
      rw [hd] at h
      have hne : ¬ (rest.dropWhile Char.isWhitespace).isEmpty = true := by
        rw [hd]; simp
      rw [List.dropWhile_append, if_neg hne, hd]
      rw [List.isPrefixOf_iff_prefix] at h ⊢
      exact h.trans ((d :: ds).prefix_append u)

theorem scanMatch_nil_nil (u : List Char) : PatchGen.scanMatch [] [] u = true := by
  induction u with
  | nil => rfl
  | cons c cs ih => simp [PatchGen.scanMatch, PatchGen.matchHere, stripPre, List.isPrefixOf]

theorem scanMatch_append {t1 t2 s u : List Char} (h : PatchGen.scanMatch t1 t2 s = true) :
    PatchGen.scanMatch t1 t2 (s ++ u) = true := by
  induction s with
  | nil =>
    have h1 : PatchGen.matchHere t1 t2 [] = true := h
    unfold PatchGen.matchHere at h1
    cases hsp : stripPre t1 [] with
    | none => rw [hsp] at h1; exact absurd h1 (by simp)
    | some rest =>
      rw [hsp] at h1
      have ht1 : t1 = [] := by
        cases t1 with
        | nil => rfl
        | cons a as => simp [stripPre] at hsp
      have hrest : rest = [] := by
        cases ht1 ▸ hsp with
        | refl => rfl
      have ht2 : t2 = [] := by
        rw [hrest] at h1
        cases t2 with
        | nil => rfl
        | cons a as => simp [List.isPrefixOf] at h1
      rw [ht1, ht2, List.nil_append]
      exact scanMatch_nil_nil u
  | cons c cs ih =>
    simp only [PatchGen.scanMatch, Bool.or_eq_true] at h
    rcases h with h | h
    · simp only [List.cons_append, PatchGen.scanMatch, Bool.or_eq_true]
      exact Or.inl (by simpa using matchHere_append (u := u) h)
    · simp only [List.cons_append, PatchGen.scanMatch, Bool.or_eq_true]
      exact Or.inr (ih h)

theorem patternMatch_append {p : PatchGen.SafetyPattern} {s u : List Char}
    (h : PatchGen.patternMatch p s = true) : PatchGen.patternMatch p (s ++ u) = true := by
  cases p with
  | lit tok => exact containsSub_append h
  | litWsLit t1 t2 => exact scanMatch_append h

/-- Every contiguous occurrence of `n` inside `c ++ u` lies inside `c`,
inside `u`, or crosses the boundary with a nonempty suffix of `n` prefixing
`u`. -/
theorem infix_append_cases {n c u : List Char} (h : n <:+: c ++ u) :
    n <:+: c ∨ n <:+: u ∨ ∃ n1 n2, n = n1 ++ n2 ∧ n2 ≠ [] ∧ n2 <+: u := by
  obtain ⟨a, b, hab⟩ := h
  have hab' : a ++ (n ++ b) = c ++ u := by simpa [List.append_assoc] using hab
  rcases List.append_eq_append_iff.mp hab' with ⟨a', hc, hnb⟩ | ⟨c', _, hu⟩
  · rcases List.append_eq_append_iff.mp hnb with ⟨n', ha', _⟩ | ⟨k, hn, hu'⟩
    · left
      exact ⟨a, n', by rw [hc, ha', List.append_assoc]⟩
    · by_cases hk : k = []
      · left
        rw [hk, List.append_nil] at hn
        exact ⟨a, [], by rw [hc, ← hn, List.append_nil]⟩
      · right; right
        exact ⟨a', k, hn, hk, ⟨b, hu'.symm⟩⟩
  · right; left
    exact ⟨c', b, by rw [hu, List.append_assoc]⟩

/-- If no nonempty suffix of `n` is a prefix of `u` and `n` does not occur in
`u`, then an occurrence of `n` in `c ++ u` forces an occurrence in `c`. -/
theorem containsSub_of_append {n c u : List Char}
    (hu : ¬ n <:+: u)
    (hcross : ∀ n2 ∈ n.tails, n2 = [] ∨ ¬ n2 <+: u)
    (h : containsSub n (c ++ u) = true) : containsSub n c = true := by
  rw [containsSub_iff_occurs] at h ⊢
  rcases infix_append_cases h with hc | hcu | ⟨n1, n2, hn, hne, hpre⟩
  · exact hc
  · exact absurd hcu hu
  · have hmem : n2 ∈ n.tails := (List.mem_tails n2 n).mpr ⟨n1, hn.symm⟩
    rcases hcross n2 hmem with h0 | h0
    · exact absurd h0 hne
    · exact absurd hpre h0

/-- Appending `"unsafe \x7b"` cannot create a `"Result"` occurrence: no
nonempty suffix of `"Result"` is a prefix of `"unsafe \x7b"`, and `"Result"`
does not occur inside it. -/
theorem result_crossing_false {c : List Char}
    (h : containsSub "Result".toList c = false) :
    containsSub "Result".toList (c ++ "unsafe \x7b".toList) = false := by
  by_contra hh
  rw [Bool.not_eq_false] at hh
  have hc := containsSub_of_append (n := "Result".toList) (by decide) (by decide) hh
  rw [hc] at h
  exact absurd h (by decide)

/-- Appending `"unsafe \x7b"` cannot create an `"Option"` occurrence. -/
theorem option_crossing_false {c : List Char}
    (h : containsSub "Option".toList c = false) :
    containsSub "Option".toList (c ++ "unsafe \x7b".toList) = false := by
  by_contra hh
  rw [Bool.not_eq_false] at hh
  have hc := containsSub_of_append (n := "Option".toList) (by decide) (by decide) hh
  rw [hc] at h
  exact absurd h (by decide)

theorem analyze_safety_nonneg (code : List Char) : 0 ≤ PatchGen.analyze_safety code := by
  simp only [PatchGen.analyze_safety]
  exact le_max_right _ _

theorem analyze_safety_le_one (code : List Char) : PatchGen.analyze_safety code ≤ 1 := by
  simp only [PatchGen.analyze_safety]
  apply max_le _ (by norm_num)
  have h1 : (0 : ℚ) ≤
      ((PatchGen.safetyPatterns.countP fun p => PatchGen.patternMatch p code : ℕ) : ℚ) * (2 / 10) := by
    positivity
  split_ifs <;> linarith

theorem analyze_safety_append_le (code : List Char) :
    PatchGen.analyze_safety (code ++ "unsafe \x7b".toList) ≤ PatchGen.analyze_safety code := by
  simp only [PatchGen.analyze_safety]
  apply max_le_max _ le_rfl
  have hcount : (PatchGen.safetyPatterns.countP fun p => PatchGen.patternMatch p code)
      ≤ PatchGen.safetyPatterns.countP
          fun p => PatchGen.patternMatch p (code ++ "unsafe \x7b".toList) :=
    List.countP_mono_left (fun p _ hp => patternMatch_append hp)
  have hpp : ((PatchGen.safetyPatterns.countP fun p => PatchGen.patternMatch p code : ℕ) : ℚ) * (2 / 10)
      ≤ ((PatchGen.safetyPatterns.countP
            fun p => PatchGen.patternMatch p (code ++ "unsafe \x7b".toList) : ℕ) : ℚ) * (2 / 10) := by
    have hc := (Nat.cast_le (α := ℚ)).mpr hcount
    linarith
  have hep : (if !containsSub "Result".toList code && !containsSub "Option".toList code
        then (1 : ℚ) / 10 else 0)
      ≤ (if !containsSub "Result".toList (code ++ "unsafe \x7b".toList)
            && !containsSub "Option".toList (code ++ "unsafe \x7b".toList)
        then (1 : ℚ) / 10 else 0) := by
    by_cases hc : (!containsSub "Result".toList code && !containsSub "Option".toList code) = true
    · rcases Bool.and_eq_true_iff.mp hc with ⟨h1, h2⟩
      have hR : containsSub "Result".toList code = false := by simpa using h1
      have hO : containsSub "Option".toList code = false := by simpa using h2
      rw [if_pos hc, if_pos]
      rw [result_crossing_false hR, option_crossing_false hO]
      rfl
    · rw [if_neg hc]
      split <;> norm_num
  have hup : (if containsSub "unsafe".toList code then (3 : ℚ) / 10 else 0)
      ≤ (if containsSub "unsafe".toList (code ++ "unsafe \x7b".toList) then (3 : ℚ) / 10 else 0) := by
    by_cases hc : containsSub "unsafe".toList code = true
    · rw [if_pos hc, if_pos (containsSub_append hc)]
    · rw [if_neg hc]
      split <;> norm_num
  linarith

/-! ### Stable-sort helper lemmas (`generate_multiple_patches`) -/

theorem sortInsert_perm (x : PatchGen.GeneratedPatch) (l : List PatchGen.GeneratedPatch) :
    List.Perm (PatchGen.sortInsert x l) (x :: l) := by
  induction l with
  | nil => exact List.Perm.refl _
  | cons y ys ih =>
    simp only [PatchGen.sortInsert]
    split
    · exact List.Perm.refl _
    · exact (ih.cons y).trans (List.Perm.swap x y ys)

theorem rankPatches_perm (l : List PatchGen.GeneratedPatch) :
    List.Perm (PatchGen.rankPatches l) l := by
  induction l with
  | nil => exact List.Perm.refl _
  | cons x xs ih => exact (sortInsert_perm x (PatchGen.rankPatches xs)).trans (ih.cons x)

theorem sortInsert_pairwise {x : PatchGen.GeneratedPatch} {l : List PatchGen.GeneratedPatch}
    (h : l.Pairwise (fun a b => PatchGen.rankKey b ≤ PatchGen.rankKey a)) :
    (PatchGen.sortInsert x l).Pairwise (fun a b => PatchGen.rankKey b ≤ PatchGen.rankKey a) := by
  induction l with
  | nil => simp [PatchGen.sortInsert]
  | cons y ys ih =>
    rcases List.pairwise_cons.mp h with ⟨hy, hys⟩
    simp only [PatchGen.sortInsert]
    split
    · rename_i hle
      refine List.pairwise_cons.mpr ⟨?_, h⟩
      intro z hz
      rcases List.mem_cons.mp hz with rfl | hz'
      · exact hle
      · exact (hy z hz').trans hle
    · rename_i hnle
      have hlt : PatchGen.rankKey x < PatchGen.rankKey y := not_le.mp hnle
      refine List.pairwise_cons.mpr ⟨?_, ih hys⟩
      intro z hz
      have hz' := (sortInsert_perm x ys).mem_iff.mp hz
      rcases List.mem_cons.mp hz' with rfl | hz''
      · exact le_of_lt hlt
      · exact hy z hz''

theorem rankPatches_pairwise (l : List PatchGen.GeneratedPatch) :
    (PatchGen.rankPatches l).Pairwise (fun a b => PatchGen.rankKey b ≤ PatchGen.rankKey a) := by
  induction l with
  | nil => simp [PatchGen.rankPatches]
  | cons x xs ih => exact sortInsert_pairwise ih

theorem sortInsert_filter (x : PatchGen.GeneratedPatch) (l : List PatchGen.GeneratedPatch) (q : ℚ) :
    (PatchGen.sortInsert x l).filter (fun p => decide (PatchGen.rankKey p = q))
      = (x :: l).filter (fun p => decide (PatchGen.rankKey p = q)) := by
  induction l with
  | nil => rfl
  | cons y ys ih =>
    simp only [PatchGen.sortInsert]
    split
    · rfl
    · rename_i hnle
      have hlt : PatchGen.rankKey x < PatchGen.rankKey y := not_le.mp hnle
      by_cases hx : PatchGen.rankKey x = q
      · have hy : ¬ PatchGen.rankKey y = q := by
          intro hy
          exact absurd hlt (by rw [hx, hy]; exact lt_irrefl q)
        simp [List.filter_cons, hx, hy, ih]
      · simp [List.filter_cons, hx, ih]

theorem rankPatches_filter (l : List PatchGen.GeneratedPatch) (q : ℚ) :
    (PatchGen.rankPatches l).filter (fun p => decide (PatchGen.rankKey p = q))
      = l.filter (fun p => decide (PatchGen.rankKey p = q)) := by
  induction l with
  | nil => rfl
  | cons x xs ih =>
    simp only [PatchGen.rankPatches]
    rw [sortInsert_filter, List.filter_cons, List.filter_cons, ih]

/-! ### Claim theorems -/

/-- C3: `analyze_safety` always returns a score in `[0, 1]`, and appending
the denylist-matching text `"unsafe \x7b"` to any code snippet can only
lower (never raise) the score. -/
theorem C3_analyze_safety_bounded_and_monotone (code : List Char) :
    (0 ≤ PatchGen.analyze_safety code ∧ PatchGen.analyze_safety code ≤ 1)
    ∧ PatchGen.analyze_safety (code ++ "unsafe \x7b".toList) ≤ PatchGen.analyze_safety code :=
  ⟨⟨analyze_safety_nonneg code, analyze_safety_le_one code⟩, analyze_safety_append_le code⟩

/-- C8: `generate_multiple_patches` returns exactly its candidate patches
(a permutation, same length), sorted by `confidence × safety_score` in
non-increasing order, with ties between equal products preserving the
original generation order (for every key value, the subsequence of patches
with that key is unchanged — the characterisation of a stable sort), and the
score comparison is total (`partial_cmp` is `None` only for NaN, which the
rational score model excludes), so the comparator's `unwrap` cannot fail. -/
theorem C8_generate_multiple_patches_ranking (patches : List PatchGen.GeneratedPatch) :
    List.Perm (PatchGen.generate_multiple_patches patches) patches
    ∧ (PatchGen.generate_multiple_patches patches).length = patches.length
    ∧ (PatchGen.generate_multiple_patches patches).Pairwise
        (fun a b => PatchGen.rankKey b ≤ PatchGen.rankKey a)
    ∧ (∀ q : ℚ,
        (PatchGen.generate_multiple_patches patches).filter
            (fun p => decide (PatchGen.rankKey p = q))
          = patches.filter (fun p => decide (PatchGen.rankKey p = q)))
    ∧ (∀ a b : ℚ, (PatchGen.scoreCmp a b).isSome = true) :=
  ⟨rankPatches_perm patches,
   (rankPatches_perm patches).length_eq,
   rankPatches_pairwise patches,
   fun q => rankPatches_filter patches q,
   fun _ _ => rfl⟩

/-- C2: the diff-application step is a placeholder that returns the diff
text itself, so even for a no-op diff (here a bare header pair with no
hunks) it does not round-trip: `apply_diff(original, D) = D ≠ original`. -/
theorem C2_apply_diff_no_round_trip :
    PatchGen.apply_diff "let x = 1;".toList "--- a/src/main.rs\n+++ b/src/main.rs\n".toList
      = "--- a/src/main.rs\n+++ b/src/main.rs\n".toList
    ∧ PatchGen.apply_diff "let x = 1;".toList "--- a/src/main.rs\n+++ b/src/main.rs\n".toList
      ≠ "let x = 1;".toList :=
  ⟨rfl, by decide⟩

/-- C7: `extract_diff` is not panic-free: on the completion `"+++"` it
computes `diff_start = 0` (no `"---"`, `unwrap_or(0)`) and
`diff_end = rfind("+++") + 100 = 100 > 3`, so the slice
`content[0..100]` is out of bounds and the function panics (`none`).
Moreover on a completion with no diff at all (`"fix: use checked add"`) it
returns the whole completion as `Ok` instead of a `ParseError`. -/
theorem C7_extract_diff_panics :
    PatchGen.extract_diff "+++".toList = none
    ∧ PatchGen.extract_diff "fix: use checked add".toList
        = some (.ok "fix: use checked add".toList) := by
  constructor <;> decide

/-- C1: `mark_patch_applied` does not preserve the invariant
`applied → validation_status = Valid/Success ∧ rollback_patch.is_some()`:
called with a `None` rollback patch on a still-`Pending` patch, it marks the
patch applied while storing no rollback patch and leaving the status
untouched. -/
theorem C1_mark_patch_applied_breaks_invariant :
    ¬ Database.patchInvariant
        (Database.mark_patch_applied
          { id := "patch-1", issue_id := "issue-1", patch_content := "diff text"
          , description := "d", confidence_score := 9 / 10, safety_score := 9 / 10
          , breaking_changes := false, dependencies_affected := none
          , validation_status := Database.DbValidationStatus.pending
          , validation_results := none, applied := false, applied_at := none
          , rollback_patch := none, created_at := 0, updated_at := 0 }
          none 1) := by
  decide

/-- C1 (amended): `mark_patch_applied` unconditionally sets `applied = true`
and stores exactly the given rollback patch without checking the validation
status, so the updated row satisfies the invariant iff the caller passed a
`Some` rollback patch and the patch's validation status was already
`Success` (this store's valid state). -/
theorem C1_mark_patch_applied_invariant_iff (p : Database.Patch) (rb : Option String) (now : Nat) :
    Database.patchInvariant (Database.mark_patch_applied p rb now)
      ↔ (p.validation_status = Database.DbValidationStatus.success ∧ rb.isSome = true) := by
  unfold Database.patchInvariant Database.mark_patch_applied
  simp

/-- C4: for every validation run that reaches classification (patch applied
to the sandbox copy), status is `Success` iff build ∧ test ∧ security all
pass, `Warning` iff build ∧ test pass but security fails, and `Failed`
otherwise; in particular a non-zero build exit forces
`build_success = false` and status `Failed`. -/
theorem C4_validate_patch_classification (id : String) (o : Validator.StageOutcomes)
    (happly : Validator.exitOk o.applyExit = true) :
    ((Validator.validate_patch id o).map Validator.ValidationResult.status
        = .ok Validator.VStatus.success
      ↔ (Validator.check_build o = true ∧ Validator.check_tests o = true
          ∧ Validator.run_security_scan o = true))
    ∧ ((Validator.validate_patch id o).map Validator.ValidationResult.status
        = .ok Validator.VStatus.warning
      ↔ (Validator.check_build o = true ∧ Validator.check_tests o = true
          ∧ Validator.run_security_scan o = false))
    ∧ ((Validator.validate_patch id o).map Validator.ValidationResult.status
        = .ok Validator.VStatus.failed
      ↔ ¬ (Validator.check_build o = true ∧ Validator.check_tests o = true))
    ∧ (o.buildExit ≠ 0 →
        (Validator.validate_patch id o).map Validator.ValidationResult.build_success = .ok false
        ∧ (Validator.validate_patch id o).map Validator.ValidationResult.status
            = .ok Validator.VStatus.failed) := by
  have hb : Validator.check_build o = Validator.exitOk o.buildExit := rfl
  refine ⟨?_, ?_, ?_, ?_⟩
  all_goals
    simp only [Validator.validate_patch, happly, Bool.not_true, Bool.false_eq_true, if_false,
      Except.map]
  · cases hcb : Validator.check_build o <;> cases hct : Validator.check_tests o <;>
      cases hcs : Validator.run_security_scan o <;> simp [hcb, hct, hcs]
  · cases hcb : Validator.check_build o <;> cases hct : Validator.check_tests o <;>
      cases hcs : Validator.run_security_scan o <;> simp [hcb, hct, hcs]
  · cases hcb : Validator.check_build o <;> cases hct : Validator.check_tests o <;>
      cases hcs : Validator.run_security_scan o <;> simp [hcb, hct, hcs]
  · intro hbuild
    have hcb : Validator.check_build o = false := by
      rw [hb]
      simp [Validator.exitOk, hbuild]
    simp [hcb]

/-- C4 witness: with apply ok, build exiting `1`, tests and both scan tools
exiting `0`, the result has `build_success = false` and status `Failed`. -/
theorem C4_validate_patch_classification_witness :
    (Validator.validate_patch "p1"
        ⟨0, 1, 0, some 0, some 0, 0, [], []⟩).map Validator.ValidationResult.build_success
      = .ok false
    ∧ (Validator.validate_patch "p1"
        ⟨0, 1, 0, some 0, some 0, 0, [], []⟩).map Validator.ValidationResult.status
      = .ok Validator.VStatus.failed :=
  (C4_validate_patch_classification "p1" ⟨0, 1, 0, some 0, some 0, 0, [], []⟩
    (by decide)).2.2.2 (by decide)

/-- C9: containerized and plain validation are not result-equivalent.  With
build and tests passing but the security scan failing (audit exits `1`), the
plain path reports `Warning` with `security_scan_passed = false`, while the
Docker path (image built, container runs `cargo check`/`cargo test`, which
pass) reports `Success` with `security_scan_passed = true`. -/
theorem C9_docker_validation_diverges :
    (Validator.validate_with_docker true "p1" ⟨0, 0, 0, some 1, some 0, 0, [], []⟩
        ⟨0, 0⟩).map Validator.ValidationResult.status = .ok Validator.VStatus.success
    ∧ (Validator.validate_patch "p1" ⟨0, 0, 0, some 1, some 0, 0, [], []⟩).map
        Validator.ValidationResult.status = .ok Validator.VStatus.warning
    ∧ (Validator.validate_with_docker true "p1" ⟨0, 0, 0, some 1, some 0, 0, [], []⟩
        ⟨0, 0⟩).map Validator.ValidationResult.security_scan_passed = .ok true
    ∧ (Validator.validate_patch "p1" ⟨0, 0, 0, some 1, some 0, 0, [], []⟩).map
        Validator.ValidationResult.security_scan_passed = .ok false
    ∧ Validator.VStatus.success ≠ Validator.VStatus.warning := by
  refine ⟨rfl, rfl, rfl, rfl, by decide⟩

/-- C9 (amended): when Docker is unavailable `validate_with_docker` is
literally `validate_patch` (result-equivalent by definition); when Docker is
available and the image builds, the Docker path reports
`security_scan_passed = true` unconditionally, never `Warning`, and
`build_success = test_success =` the single container exit — so the two
mechanisms agree only when that degenerate shape matches the plain result. -/
theorem C9_docker_validation_semantics (id : String) (o : Validator.StageOutcomes)
    (d : Validator.DockerOutcomes) :
    Validator.validate_with_docker false id o d = Validator.validate_patch id o
    ∧ (Validator.exitOk d.buildImageExit = true →
        (Validator.validate_with_docker true id o d).map
            Validator.ValidationResult.security_scan_passed = .ok true
        ∧ (Validator.validate_with_docker true id o d).map
            Validator.ValidationResult.status ≠ .ok Validator.VStatus.warning
        ∧ (Validator.validate_with_docker true id o d).map
            Validator.ValidationResult.build_success = .ok (Validator.exitOk d.runExit)
        ∧ (Validator.validate_with_docker true id o d).map
            Validator.ValidationResult.test_success = .ok (Validator.exitOk d.runExit)) := by
  constructor
  · rfl
  · intro hbuild
    simp only [Validator.validate_with_docker, hbuild, Bool.not_true, Bool.not_false,
      Bool.false_eq_true, if_false, if_true, Except.map]
    cases hrun : Validator.exitOk d.runExit <;> simp [hrun]

/-- C9 witness: with the image building and the container run failing, the
Docker path reports security passed, a non-`Warning` status, and
build/test success equal to the container exit (`false`). -/
theorem C9_docker_validation_semantics_witness :
    (Validator.validate_with_docker true "p1" ⟨0, 0, 0, none, none, 0, [], []⟩
        ⟨0, 1⟩).map Validator.ValidationResult.security_scan_passed = .ok true
    ∧ (Validator.validate_with_docker true "p1" ⟨0, 0, 0, none, none, 0, [], []⟩
        ⟨0, 1⟩).map Validator.ValidationResult.status ≠ .ok Validator.VStatus.warning
    ∧ (Validator.validate_with_docker true "p1" ⟨0, 0, 0, none, none, 0, [], []⟩
        ⟨0, 1⟩).map Validator.ValidationResult.build_success
        = .ok (Validator.exitOk (1 : Int))
    ∧ (Validator.validate_with_docker true "p1" ⟨0, 0, 0, none, none, 0, [], []⟩
        ⟨0, 1⟩).map Validator.ValidationResult.test_success
        = .ok (Validator.exitOk (1 : Int)) :=
  (C9_docker_validation_semantics "p1" ⟨0, 0, 0, none, none, 0, [], []⟩ ⟨0, 1⟩).2 (by decide)

/-- C5: a conflicting `apply_patch` does not surface as
`GitConflict`/`MergeConflict` and does not leave the tree clean: `git apply
--3way` exits non-zero after writing conflict markers into the working tree,
and the code wraps that as `BranchError`, so the error is not
`MergeConflict` and `is_working_directory_clean` can return `false`. -/
theorem C5_apply_patch_conflict_counterexample :
    (GitOps.apply_patch ⟨["c0"], "c0", true⟩
        ⟨false, "error: patch failed: src/main.rs:1"⟩ false).1
      = Except.error (GitOps.GitError.branchError
          "Failed to apply patch: error: patch failed: src/main.rs:1")
    ∧ GitOps.GitError.branchError "Failed to apply patch: error: patch failed: src/main.rs:1"
        ≠ GitOps.GitError.mergeConflict
    ∧ GitOps.is_working_directory_clean
        (GitOps.apply_patch ⟨["c0"], "c0", true⟩
          ⟨false, "error: patch failed: src/main.rs:1"⟩ false).2 = false := by
  refine ⟨rfl, by decide, rfl⟩

/-- C5 (amended): a conflicted `cherry_pick` returns `MergeConflict` before
any tree write or commit and leaves the repository state (including working
tree cleanliness) unchanged; a failed `apply_patch` (which is how a merge
conflict under `git apply --3way` surfaces) returns a `BranchError` wrapping
the subprocess stderr — not `MergeConflict` — and the working tree is left
in whatever state the subprocess produced. -/
theorem C5_conflict_handling_semantics (st : GitOps.RepoState)
    (idx : GitOps.CherryPickIndex) (newId : String)
    (out : GitOps.ProcOutput) (wd : Bool) :
    (idx.conflicted = true →
      GitOps.cherry_pick st idx newId = (Except.error GitOps.GitError.mergeConflict, st)
      ∧ GitOps.is_working_directory_clean (GitOps.cherry_pick st idx newId).2
          = GitOps.is_working_directory_clean st)
    ∧ (out.success = false →
      (GitOps.apply_patch st out wd).1
          = Except.error (GitOps.GitError.branchError ("Failed to apply patch: " ++ out.stderr))
      ∧ GitOps.is_working_directory_clean (GitOps.apply_patch st out wd).2 = wd) := by
  constructor
  · intro hc
    simp [GitOps.cherry_pick, hc]
  · intro hf
    simp [GitOps.apply_patch, hf, GitOps.is_working_directory_clean]

/-- C5 witness: a conflicted cherry-pick on a clean one-commit repository
returns `MergeConflict` with the state unchanged, and a failed `git apply`
returns the wrapped `BranchError`. -/
theorem C5_conflict_handling_semantics_witness :
    (GitOps.cherry_pick ⟨["c0"], "c0", true⟩ ⟨true, "t1"⟩ "c1"
        = (Except.error GitOps.GitError.mergeConflict, ⟨["c0"], "c0", true⟩)
      ∧ GitOps.is_working_directory_clean
          (GitOps.cherry_pick ⟨["c0"], "c0", true⟩ ⟨true, "t1"⟩ "c1").2
        = GitOps.is_working_directory_clean (⟨["c0"], "c0", true⟩ : GitOps.RepoState))
    ∧ ((GitOps.apply_patch ⟨["c0"], "c0", true⟩ ⟨false, "boom"⟩ false).1
        = Except.error (GitOps.GitError.branchError ("Failed to apply patch: " ++ "boom"))
      ∧ GitOps.is_working_directory_clean
          (GitOps.apply_patch ⟨["c0"], "c0", true⟩ ⟨false, "boom"⟩ false).2 = false) :=
  ⟨(C5_conflict_handling_semantics ⟨["c0"], "c0", true⟩ ⟨true, "t1"⟩ "c1" ⟨false, "boom"⟩ false).1
      rfl,
   (C5_conflict_handling_semantics ⟨["c0"], "c0", true⟩ ⟨true, "t1"⟩ "c1" ⟨false, "boom"⟩ false).2
      rfl⟩

/-- Rust `analyze_project` succeeds when every file reads and parses. -/
theorem analyze_project_ok_of_all {files : List Analyzer.RustFile}
    (h : ∀ g ∈ files, ∃ items, g.parsed = .ok items) :
    ∃ issues, Analyzer.analyze_project files = .ok issues := by
  induction files with
  | nil => exact ⟨[], rfl⟩
  | cons f rest ih =>
    obtain ⟨items, hf⟩ := h f (List.mem_cons_self f rest)
    obtain ⟨more, hrest⟩ := ih (fun g hg => h g (List.mem_cons_of_mem f hg))
    refine ⟨Analyzer.visit_file f.path items ++ more, ?_⟩
    simp [Analyzer.analyze_project, Analyzer.analyze_file, hf, hrest]

/-- C6: a parse failure on one file aborts the whole analysis: the project
with an unparsable `bad.rs` followed by `good.rs` (which contains an unsafe
function the visitor would flag) returns the propagated error — no
`ParseError` issue, and none of `good.rs`'s issues. -/
theorem C6_parse_failure_aborts_counterexample :
    Analyzer.analyze_project
        [ ⟨"bad.rs", Except.error "Failed to parse file: bad.rs"⟩
        , ⟨"good.rs", Except.ok [Analyzer.Item.itemFn "foo" 3 0 true]⟩ ]
      = Except.error "Failed to parse file: bad.rs"
    ∧ Analyzer.analyze_file ⟨"good.rs", Except.ok [Analyzer.Item.itemFn "foo" 3 0 true]⟩
      = Except.ok [Analyzer.add_issue "good.rs" Analyzer.IssueType.unsafeCode 3 0
          "Unsafe function detected"
          (some "Consider safe alternatives or add safety documentation")] := by
  constructor <;> rfl

/-- C6 (amended): `analyze_file` propagates a read/parse failure with `?`,
and `analyze_project` propagates the first such failure out of its loop:
the issues of all remaining files are discarded, and no `ParseError` issue
exists (`IssueType` has no such variant); only when every file parses does
`analyze_project` return an issue list. -/
theorem C6_parse_failure_abort_semantics (pre : List Analyzer.RustFile)
    (f : Analyzer.RustFile) (post : List Analyzer.RustFile) (e : String) :
    (f.parsed = .error e → (∀ g ∈ pre, ∃ items, g.parsed = .ok items) →
      Analyzer.analyze_project (pre ++ f :: post) = .error e)
    ∧ ((∀ g ∈ pre ++ f :: post, ∃ items, g.parsed = .ok items) →
      ∃ issues, Analyzer.analyze_project (pre ++ f :: post) = .ok issues) := by
  constructor
  · intro hf hpre
    induction pre with
    | nil =>
      simp [Analyzer.analyze_project, Analyzer.analyze_file, hf]
    | cons g rest ih =>
      obtain ⟨items, hg⟩ := hpre g (List.mem_cons_self g rest)
      have hrest := ih (fun g' hg' => hpre g' (List.mem_cons_of_mem g hg'))
      simp only [List.cons_append, Analyzer.analyze_project, Analyzer.analyze_file, hg,
        List.append_eq, hrest]
  · exact analyze_project_ok_of_all

/-- C6 witness: with a parsable `lib.rs` in front, the unparsable `bad.rs`
error is still what the whole analysis returns. -/
theorem C6_parse_failure_abort_semantics_witness :
    Analyzer.analyze_project
        [ ⟨"lib.rs", Except.ok []⟩, ⟨"bad.rs", Except.error "Failed to parse file: bad.rs"⟩ ]
      = Except.error "Failed to parse file: bad.rs" :=
  (C6_parse_failure_abort_semantics [⟨"lib.rs", Except.ok []⟩]
      ⟨"bad.rs", Except.error "Failed to parse file: bad.rs"⟩ [] "Failed to parse file: bad.rs").1
    rfl
    (by
      intro g hg
      simp only [List.mem_singleton] at hg
      exact ⟨[], by rw [hg]⟩)

/-- C10: `get_original_code` is panic-free exactly when
`line_number.saturating_sub(5)` does not exceed the file's line count; under
that precondition it returns the lines from `line_number − 5` up to
`min(line_number + 5, line count)` joined by newlines; and when
`line_number` exceeds the line count by more than 5, the slice's lower bound
exceeds its upper bound. -/
theorem C10_get_original_code_bounds (content : List Char) (n : Nat) :
    ((PatchGen.get_original_code content n).isSome = true
      ↔ n - 5 ≤ (rustLines content).length)
    ∧ (n - 5 ≤ (rustLines content).length →
        PatchGen.get_original_code content n
          = some (List.intercalate "\n".toList
              (((rustLines content).drop (n - 5)).take
                (min (n + 5) (rustLines content).length - (n - 5)))))
    ∧ ((rustLines content).length + 5 < n →
        min (n + 5) (rustLines content).length < n - 5) := by
  by_cases h : n - 5 ≤ (rustLines content).length
  case pos =>
    have hcond : n - 5 ≤ min (n + 5) (rustLines content).length
        ∧ min (n + 5) (rustLines content).length ≤ (rustLines content).length := by
      omega
    refine ⟨?_, ?_, ?_⟩
    · simp only [PatchGen.get_original_code]
      rw [if_pos hcond]
      simp [h]
    · intro _
      simp only [PatchGen.get_original_code]
      rw [if_pos hcond]
    · intro hbig
      omega
  case neg =>
    have hcond : ¬ (n - 5 ≤ min (n + 5) (rustLines content).length
        ∧ min (n + 5) (rustLines content).length ≤ (rustLines content).length) := by
      omega
    refine ⟨?_, ?_, ?_⟩
    · simp only [PatchGen.get_original_code]
      rw [if_neg hcond]
      simp [h]
    · intro hcontra
      omega
    · intro hbig
      omega

/-- C10 witness: on a three-line file with `line_number = 1` the precondition
holds and the whole context window (all three lines) is returned. -/
theorem C10_get_original_code_bounds_witness :
    PatchGen.get_original_code "a\nb\nc".toList 1 = some "a\nb\nc".toList := by
  have h := (C10_get_original_code_bounds "a\nb\nc".toList 1).2.1 (by decide)
  rw [h]
  decide

example : containsSub "bc".toList "abcd".toList = true := by decide
example : containsSub "ca".toList "abcd".toList = false := by decide
example : findSub "+++".toList "a+++b+++".toList = some 1 := by decide
example : rfindSub "+++".toList "a+++b+++".toList = some 5 := by decide
example : rustLines "a\nb\n".toList = ["a".toList, "b".toList] := by decide
example : rustLines "".toList = [] := by decide
example : rustLines "a\r\nb".toList = ["a".toList, "b".toList] := by decide
